import Mathlib

/-!
# Verification of the HubDoc document-ingestion / session-cache core

Shallow embedding of the TypeScript sources:
- `src/App.tsx` (ingestion `handleFiles`, `fileToBase64`, the restore and
  save effects, `handleSummarize`, `removeFile`);
- `src/types.ts` (`PreviewFile`);
- `src/services/geminiService.ts` (`summarizeDocument`);
- `src/components/PreviewCard.tsx` (`renderContent`, the summarize button).

JavaScript strings are modelled as Lean `String`/`List Char`; raw file
bytes as `List Nat` with values `< 256`.  The browser primitives the code
calls (`FileReader.readAsDataURL`, `atob`, `Blob`, `localStorage`) are
modelled after their platform contracts, which the repository relies on.
-/

namespace DocHub

/-! ## JavaScript string helpers -/

/-- JavaScript `s.includes(sub)` — substring containment. -/
def strIncludes (s sub : String) : Bool := decide (sub.data <:+: s.data)

/-- JavaScript `s.endsWith(suffix)`. -/
def strEndsWith (s suffix : String) : Bool := decide (suffix.data <:+ s.data)

/-- JavaScript `s || fallback` on strings: the empty string is falsy. -/
def jsOrStr (s fallback : String) : String := if s = "" then fallback else s

/-- JavaScript `o || fallback` where `o` is an optional string field:
both `undefined` and `""` are falsy. -/
def jsOrOpt (o : Option String) (fallback : String) : String :=
  match o with
  | none => fallback
  | some s => jsOrStr s fallback

/-- JavaScript truthiness of an optional string field (`!!o`). -/
def jsTruthyOpt (o : Option String) : Bool :=
  match o with
  | none => false
  | some s => s ≠ ""

/-- JavaScript `s.split(',')` on a list of characters: splits at every
comma, keeping empty segments, as `Array.prototype.split` does with a
single-character separator. -/
def splitCommaAux : List Char → List Char → List (List Char)
  | [], acc => [acc.reverse]
  | c :: rest, acc =>
      if c = ',' then acc.reverse :: splitCommaAux rest []
      else splitCommaAux rest (c :: acc)

/-- JavaScript `s.split(',')`. -/
def splitComma (s : List Char) : List (List Char) := splitCommaAux s []

/-! ## Base64 (the codec behind `FileReader.readAsDataURL` and `atob`) -/

/-- The standard base64 alphabet used by `btoa`/`atob`/data URLs. -/
def b64Alphabet : List Char :=
  "ABCDEFGHIJKLMNOPQRSTUVWXYZabcdefghijklmnopqrstuvwxyz0123456789+/".data

/-- The base64 digit for a 6-bit value. -/
def b64Char (n : Nat) : Char := b64Alphabet.getD n 'A'

/-- The 6-bit value of a base64 digit, `none` for characters outside the
alphabet (`atob` raises `InvalidCharacterError` on those). -/
def b64Index (c : Char) : Option Nat := b64Alphabet.findIdx? (· = c)

/-- Base64 encoding of a byte list, with `=` padding, as produced by
`FileReader.readAsDataURL`. -/
def b64Encode : List Nat → List Char
  | [] => []
  | [a] => [b64Char (a / 4), b64Char (a % 4 * 16), '=', '=']
  | [a, b] => [b64Char (a / 4), b64Char (a % 4 * 16 + b / 16), b64Char (b % 16 * 4), '=']
  | a :: b :: c :: rest =>
      b64Char (a / 4) :: b64Char (a % 4 * 16 + b / 16) ::
      b64Char (b % 16 * 4 + c / 64) :: b64Char (c % 64) :: b64Encode rest

/-- ASCII whitespace stripped by `atob` (forgiving-base64 decode). -/
def isB64Ws (c : Char) : Bool :=
  c = ' ' ∨ c = '\t' ∨ c = '\n' ∨ c = '\r' ∨ c = '\x0c'

/-- Core of forgiving-base64 decoding: processes digits four at a time;
`=` padding is accepted only at the very end; leftover bits of a final
partial group are discarded, as the WHATWG algorithm does. -/
def b64DecodeCore : List Char → Option (List Nat)
  | [] => some []
  | [c1, c2] => do
      let i ← b64Index c1
      let j ← b64Index c2
      some [i * 4 + j / 16]
  | [c1, c2, c3] => do
      let i ← b64Index c1
      let j ← b64Index c2
      let k ← b64Index c3
      some [i * 4 + j / 16, j % 16 * 16 + k / 4]
  | c1 :: c2 :: c3 :: c4 :: rest =>
      if c3 = '=' ∧ c4 = '=' ∧ rest = [] then do
        let i ← b64Index c1
        let j ← b64Index c2
        some [i * 4 + j / 16]
      else if c4 = '=' ∧ rest = [] then do
        let i ← b64Index c1
        let j ← b64Index c2
        let k ← b64Index c3
        some [i * 4 + j / 16, j % 16 * 16 + k / 4]
      else do
        let i ← b64Index c1
        let j ← b64Index c2
        let k ← b64Index c3
        let l ← b64Index c4
        let tail ← b64DecodeCore rest
        some ((i * 4 + j / 16) :: (j % 16 * 16 + k / 4) :: (k % 4 * 64 + l) :: tail)
  | [_] => none

/-- Model of the browser's `atob`: strip ASCII whitespace, then decode;
returns `none` where `atob` throws `InvalidCharacterError`. -/
def atobModel (s : List Char) : Option (List Nat) :=
  b64DecodeCore (s.filter (fun c => !isB64Ws c))

/-! ## Data model (`src/types.ts` and browser resources) -/

/-- Payload of a `Blob`: constructed either from a JavaScript string
(`new Blob([file.content], ...)`) or from a `Uint8Array` of bytes. -/
inductive BlobData
  | str (s : String)
  | bytes (b : List Nat)
deriving DecidableEq, Repr

/-- The object URL produced by `URL.createObjectURL(blob)`, modelled by
the blob it resolves to: its payload and its declared MIME type. -/
structure BlobRef where
  data : BlobData
  type : String
deriving DecidableEq, Repr

/-- UTF-8 encoding of one character (how a string-built `Blob` stores it). -/
def utf8Char (c : Char) : List Nat :=
  let n := c.toNat
  if n < 128 then [n]
  else if n < 2048 then [192 + n / 64, 128 + n % 64]
  else if n < 65536 then [224 + n / 4096, 128 + n / 64 % 64, 128 + n % 64]
  else [240 + n / 262144, 128 + n / 4096 % 64, 128 + n / 64 % 64, 128 + n % 64]

/-- UTF-8 encoding of a string. -/
def utf8Encode (s : String) : List Nat :=
  s.data.foldr (fun c acc => utf8Char c ++ acc) []

/-- The byte content a blob resolves to. -/
def blobBytes : BlobData → List Nat
  | .str s => utf8Encode s
  | .bytes b => b

/-- `PreviewFile` from `src/types.ts`.  `url` is `none` for a restored
record that was given no object URL; `content` is `""` where the source
leaves it empty; `summary`/`isSummarizing` are the optional fields. -/
structure PreviewFile where
  id : String
  name : String
  type : String
  size : Nat
  url : Option BlobRef
  content : String
  summary : Option String
  isSummarizing : Bool
deriving DecidableEq, Repr

/-- The shape actually persisted by the save effect: every `PreviewFile`
field except `url` (`files.map ({ url, ...rest }) => rest)`). -/
structure SavedFile where
  id : String
  name : String
  type : String
  size : Nat
  content : String
  summary : Option String
  isSummarizing : Bool
deriving DecidableEq, Repr

/-- The destructuring `({ url, ...rest }) => rest` in the save effect. -/
def stripUrl (f : PreviewFile) : SavedFile :=
  { id := f.id, name := f.name, type := f.type, size := f.size,
    content := f.content, summary := f.summary, isSummarizing := f.isSummarizing }

/-! ## Ingestion (`handleFiles` / `fileToBase64` in `src/App.tsx`) -/

/-- An input `File` from drag-drop or the file picker.  `bytes` are the
raw bytes; `text` is what `file.text()` returns for it (the UTF-8
decoding of `bytes` — kept as its own field because the code reads
exactly one of the two per file). -/
structure InputFile where
  name : String
  type : String
  size : Nat
  bytes : List Nat
  text : String
deriving DecidableEq, Repr

/-- The text-vs-binary branch condition of `handleFiles` (line 83 of
`src/App.tsx`). -/
def isTextLikeInput (f : InputFile) : Bool :=
  strEndsWith f.name ".md" || strEndsWith f.name ".txt" || strEndsWith f.name ".xml" ||
  strIncludes f.type "text" || strIncludes f.type "markdown"

/-- The data URL produced by `FileReader.readAsDataURL` in `fileToBase64`:
`data:<mediatype>;base64,<base64 of the bytes>`. -/
def dataUrl (t : String) (b : List Nat) : String :=
  "data:" ++ t ++ ";base64," ++ (b64Encode b).asString

/-- Processing of one file inside `handleFiles`: allocate an id, create
an object URL for the raw file, and store either the text or the data
URL as `content`. -/
def ingestOne (genId : String) (f : InputFile) : PreviewFile :=
  { id := genId
    name := f.name
    type := jsOrStr f.type "application/octet-stream"
    size := f.size
    url := some { data := .bytes f.bytes, type := f.type }
    content := if isTextLikeInput f then f.text else dataUrl f.type f.bytes
    summary := none
    isSummarizing := false }

/-- `handleFiles`: process the batch in order (the `i`-th file receives
the `i`-th generated random id `gen i`) and append after the existing
records (`setFiles(prev => [...prev, ...processedFiles])`). -/
def handleFiles (gen : Nat → String) (inputs : List InputFile)
    (prev : List PreviewFile) : List PreviewFile :=
  prev ++ inputs.enum.map (fun p => ingestOne (gen p.1) p.2)

/-! ## Session restore (the mount effect, lines 16–46 of `src/App.tsx`) -/

/-- `atob(file.content.split(',')[1] || file.content)` followed by the
`charCodeAt` loop, which reads back exactly the decoded bytes. -/
def decodeDataUrl (content : String) : Option (List Nat) :=
  let seg := (splitComma content.data).getD 1 []
  atobModel (if seg = [] then content.data else seg)

/-- Restoration of a single saved record (the body of the `map` in the
restore effect); `none` where the code would throw (`atob` failure). -/
def restoreOne (f : SavedFile) : Option PreviewFile :=
  if f.content ≠ "" ∧ strIncludes f.type "pdf" = false ∧
      strEndsWith f.name ".pptx" = false then
    some { id := f.id, name := f.name, type := f.type, size := f.size,
           url := some { data := .str f.content, type := f.type },
           content := f.content, summary := f.summary,
           isSummarizing := f.isSummarizing }
  else if f.content ≠ "" then
    match decodeDataUrl f.content with
    | some bs =>
        some { id := f.id, name := f.name, type := f.type, size := f.size,
               url := some { data := .bytes bs, type := f.type },
               content := f.content, summary := f.summary,
               isSummarizing := f.isSummarizing }
    | none => none
  else
    some { id := f.id, name := f.name, type := f.type, size := f.size,
           url := none, content := f.content, summary := f.summary,
           isSummarizing := f.isSummarizing }

/-- The `parsedFiles.map ...` call: the whole map sits inside one
`try`, so a single throwing record poisons the entire result. -/
def restoreSession (saved : List SavedFile) : Option (List PreviewFile) :=
  saved.mapM restoreOne

/-- The restore effect: with no stored entry (or a falsy one) the state
keeps its initial value `[]`; with a stored session, a successful map is
installed via `setFiles`; on an exception `setFiles` is never called, so
the state also stays `[]`. -/
def restoreEffect (stored : Option (List SavedFile)) : List PreviewFile :=
  match stored with
  | none => []
  | some saved => (restoreSession saved).getD []

/-! ## Session store (the save effect, lines 49–62 of `src/App.tsx`) -/

/-- The single `localStorage` entry under `STORAGE_KEY`, holding the
parsed form of the stored JSON. -/
structure StorageState where
  entry : Option (List SavedFile)
deriving DecidableEq, Repr

/-- Size stand-in for `JSON.stringify(filesToSave).length`, measured in
characters of the variable-length fields plus a constant per record; the
theorems below depend only on how this compares with the quota, not on
its exact value. -/
def sessionSize (l : List SavedFile) : Nat :=
  l.foldl
    (fun a f =>
      a + f.id.length + f.name.length + f.type.length + f.content.length +
        (f.summary.getD "").length + 64)
    2

/-- Model of `localStorage.setItem` (Web Storage): the write either
replaces the entry wholesale or throws `QuotaExceededError` leaving the
previous value untouched — never a partial write.  The `Bool` reports
success. -/
def setItemModel (quota : Nat) (st : StorageState) (v : List SavedFile) :
    StorageState × Bool :=
  if sessionSize v ≤ quota then ({ entry := some v }, true) else (st, false)

/-- The save effect: skipped while `isRestoring`; otherwise strips `url`
from every record and attempts one `setItem`, catching the quota error.
Returns the resulting store and the payload handed to `setItem` (`none`
when the guard skipped the write). -/
def saveEffect (quota : Nat) (st : StorageState) (files : List PreviewFile)
    (isRestoring : Bool) : StorageState × Option (List SavedFile) :=
  if isRestoring then (st, none)
  else ((setItemModel quota st (files.map stripUrl)).1, some (files.map stripUrl))

/-- Trace of a component mount: the files state after the restore, the
final storage, and the payloads passed to `setItem` along the way. -/
structure MountTrace where
  files : List PreviewFile
  store : StorageState
  savesAttempted : List (List SavedFile)
deriving DecidableEq, Repr

/-- Mount sequence of `App`: first render has `files = []`,
`isRestoring = true`; the restore effect reads the store and updates the
state (`setFiles`, `setIsRestoring(false)`), while the save effect's
first run sees `isRestoring = true` and returns early; the state updates
re-render, and the save effect runs again with the restored files and
`isRestoring = false`. -/
def mountApp (quota : Nat) (st0 : StorageState) : MountTrace :=
  let r1 := saveEffect quota st0 [] true
  let files1 := restoreEffect st0.entry
  let r2 := saveEffect quota r1.1 files1 false
  { files := files1
    store := r2.1
    savesAttempted := r1.2.toList ++ r2.2.toList }

/-! ## Summarization (`handleSummarize` and `summarizeDocument`) -/

/-- Outcome of `ai.models.generateContent`: a returned text (with
`ok ""` covering both an empty and an undefined `response.text`), or a
thrown error. -/
inductive RemoteOutcome
  | ok (text : String)
  | error
deriving DecidableEq, Repr

/-- JavaScript `content.substring(0, n)`: the first `n` UTF-16 units
(first `n` characters, for the strings of this development). -/
def jsSubstring (s : String) (n : Nat) : String := ⟨s.data.take n⟩

/-- The template text of the prompt `summarizeDocument` sends, up to and
including the `Conteúdo:` marker after which the document content is
inlined. -/
def promptHeader (fileName : String) : String :=
  "Por favor, resuma o conteúdo do seguinte documento \"" ++ fileName ++
  "\". \n      Foque nos pontos principais e seja conciso. Se o conteúdo parecer ser um código XML ou Markdown, explique o que ele faz.\n      \n      Conteúdo:\n      "

/-- The full prompt: template text around the file name plus
`content.substring(0, 5000)`. -/
def promptFor (fileName content : String) : String :=
  promptHeader fileName ++ jsSubstring content 5000

/-- Fallback for an empty/undefined remote result. -/
def emptyFallback : String := "Não foi possível gerar um resumo."

/-- Fallback returned from the `catch` in `summarizeDocument`. -/
def errorFallback : String := "Erro ao processar o resumo com a IA."

/-- Result of `summarizeDocument` given the remote outcome:
`response.text || emptyFallback`, or `errorFallback` when the call
throws. -/
def summarizeDocumentModel (outcome : RemoteOutcome) : String :=
  match outcome with
  | .ok t => jsOrStr t emptyFallback
  | .error => errorFallback

/-- `textToSummarize` in `handleSummarize`:
`file.type.includes('pdf') ? \`Documento PDF: ...\` : (file.content || file.name)`. -/
def textToSummarize (f : PreviewFile) : String :=
  if strIncludes f.type "pdf" then "Documento PDF: " ++ f.name
  else jsOrStr f.content f.name

/-- Result of one full `handleSummarize` invocation: the files state
after the resolution and the prompts sent to the remote model. -/
structure SummarizeStep where
  files : List PreviewFile
  remoteCalls : List String
deriving DecidableEq, Repr

/-- `handleSummarize`: unconditionally mark the record as summarizing,
issue the remote call, then store the result and clear the flag.  There
is no guard on `isSummarizing` anywhere in this function. -/
def handleSummarize (files : List PreviewFile) (f : PreviewFile)
    (outcome : RemoteOutcome) : SummarizeStep :=
  let files1 := files.map fun g =>
    if g.id = f.id then { g with isSummarizing := true } else g
  let summary := summarizeDocumentModel outcome
  let files2 := files1.map fun g =>
    if g.id = f.id then { g with summary := some summary, isSummarizing := false } else g
  { files := files2
    remoteCalls := [promptFor f.name (textToSummarize f)] }

/-! ## Rendering (`PreviewCard.renderContent` and the summarize button) -/

/-- The two values of `viewMode` in `PreviewCard`. -/
inductive ViewMode
  | preview
  | summary
deriving DecidableEq, Repr

/-- The fixed set of strategies `renderContent` can return, one per
`return` branch of the function. -/
inductive RenderStrategy
  | summaryView (isSummarizing : Bool) (summaryText : Option String)
  | pdfViewer (url : Option BlobRef)
  | markdownView (text : String)
  | codeBlock (text : String)
  | pptxPlaceholder (url : Option BlobRef)
  | unsupported
deriving DecidableEq, Repr

/-- `renderContent`, branch for branch: the summary view short-circuits
every type check; then PDF, Markdown, XML/text, PPTX, and the final
unsupported fallback. -/
def renderContent (f : PreviewFile) (vm : ViewMode) : RenderStrategy :=
  if vm = .summary then .summaryView f.isSummarizing f.summary
  else if strIncludes f.type "pdf" then .pdfViewer f.url
  else if strEndsWith f.name ".md" || strIncludes f.type "markdown" then
    .markdownView (jsOrStr f.content "")
  else if strIncludes f.type "xml" || strIncludes f.type "text" then
    .codeBlock f.content
  else if strEndsWith f.name ".pptx" then .pptxPlaceholder f.url
  else .unsupported

/-- Visibility of the `Gerar IA` button in `PreviewCard`:
`!file.summary && !file.isSummarizing`. -/
def showGenerate (f : PreviewFile) : Bool :=
  !jsTruthyOpt f.summary && !f.isSummarizing


/-! ## Concrete fixtures used by witnesses and counterexamples -/

/-- A two-byte PDF input file. -/
def pdfInput : InputFile :=
  { name := "doc.pdf", type := "application/pdf", size := 2, bytes := [0, 255], text := "" }

/-- A two-byte PNG input file: binary at ingestion, but neither a PDF
type nor a `.pptx` name. -/
def pngInput : InputFile :=
  { name := "img.png", type := "image/png", size := 2, bytes := [0, 255], text := "" }

/-- A two-byte PPTX input file whose raw bytes are the ASCII text `AB`. -/
def pptxInput : InputFile :=
  { name := "slides.pptx",
    type := "application/vnd.openxmlformats-officedocument.presentationml.presentation",
    size := 2, bytes := [65, 66], text := "AB" }

/-- The PDF record as ingested. -/
def pdfDoc : PreviewFile := ingestOne "id1" pdfInput

/-- The PNG record as ingested. -/
def pngDoc : PreviewFile := ingestOne "id2" pngInput

/-- The PPTX record as ingested. -/
def pptxDoc : PreviewFile := ingestOne "id3" pptxInput

/-- A well-formed persisted PDF record. -/
def goodSaved : SavedFile := stripUrl pdfDoc

/-- A persisted PDF record whose base64 payload is malformed (`%` is not
a base64 digit, so `atob` throws on it). -/
def badSaved : SavedFile :=
  { id := "b1", name := "bad.pdf", type := "application/pdf", size := 4,
    content := "data:application/pdf;base64,%%%%", summary := none, isSummarizing := false }

/-- The PDF record while its summarization is in flight. -/
def inflightDoc : PreviewFile := { pdfDoc with isSummarizing := true }

/-- The in-flight PDF record as persisted by the save effect. -/
def inflightSaved : SavedFile := stripUrl inflightDoc

/-- The PDF record after a thrown summarization, as `handleSummarize`
leaves it. -/
def pdfDocFailed : PreviewFile :=
  { pdfDoc with summary := some errorFallback, isSummarizing := false }


/-! ### Round-trip lemmas for the base64 layer -/

theorem b64Char_mem (n : Nat) : b64Char n ∈ b64Alphabet := by
  by_cases h : n < b64Alphabet.length
  · simp [b64Char, List.getD_eq_getElem?_getD, List.getElem?_eq_getElem h]
  · simp [b64Char, List.getD_eq_getElem?_getD, List.getElem?_eq_none (le_of_not_lt h)]
    decide

theorem alphabet_clean : ∀ c ∈ b64Alphabet, c ≠ '=' ∧ c ≠ ',' ∧ isB64Ws c = false := by
  decide

theorem b64Char_ne_eq (n : Nat) : b64Char n ≠ '=' :=
  (alphabet_clean _ (b64Char_mem n)).1

theorem b64Index_b64Char : ∀ n, n < 64 → b64Index (b64Char n) = some n := by decide

/-- Every character of a base64 encoding is an alphabet digit or `=`. -/
theorem b64Encode_chars (b : List Nat) :
    ∀ c ∈ b64Encode b, c ∈ b64Alphabet ∨ c = '=' := by
  match b with
  | [] => simp [b64Encode]
  | [a] =>
      simp only [b64Encode, List.mem_cons, List.not_mem_nil, or_false]
      rintro c (rfl | rfl | rfl | rfl) <;> simp [b64Char_mem]
  | [a, b] =>
      simp only [b64Encode, List.mem_cons, List.not_mem_nil, or_false]
      rintro c (rfl | rfl | rfl | rfl) <;> simp [b64Char_mem]
  | a :: b :: c :: rest =>
      simp only [b64Encode, List.mem_cons]
      rintro d (rfl | rfl | rfl | rfl | hd)
      · exact Or.inl (b64Char_mem _)
      · exact Or.inl (b64Char_mem _)
      · exact Or.inl (b64Char_mem _)
      · exact Or.inl (b64Char_mem _)
      · exact b64Encode_chars rest d hd

/-- `atob`'s whitespace stripping is the identity on base64 encodings. -/
theorem b64Encode_filter_ws (b : List Nat) :
    (b64Encode b).filter (fun c => !isB64Ws c) = b64Encode b := by
  apply List.filter_eq_self.mpr
  intro c hc
  rcases b64Encode_chars b c hc with h | rfl
  · simp [(alphabet_clean c h).2.2]
  · decide

/-- Base64 digits are never commas, so a data URL splits cleanly. -/
theorem b64Encode_no_comma (b : List Nat) : ∀ c ∈ b64Encode b, c ≠ ',' := by
  intro c hc
  rcases b64Encode_chars b c hc with h | rfl
  · exact (alphabet_clean c h).2.1
  · decide

/-- Decoding inverts encoding on byte lists. -/
theorem b64DecodeCore_b64Encode :
    ∀ b : List Nat, (∀ x ∈ b, x < 256) → b64DecodeCore (b64Encode b) = some b
  | [], _ => rfl
  | [a], h => by
      have ha : a < 256 := h a (by simp)
      have h1 : b64Index (b64Char (a / 4)) = some (a / 4) :=
        b64Index_b64Char _ (by omega)
      have h2 : b64Index (b64Char (a % 4 * 16)) = some (a % 4 * 16) :=
        b64Index_b64Char _ (by omega)
      simp [b64Encode, b64DecodeCore, h1, h2]
      omega
  | [a, b], h => by
      have ha : a < 256 := h a (by simp)
      have hb : b < 256 := h b (by simp)
      have h1 : b64Index (b64Char (a / 4)) = some (a / 4) :=
        b64Index_b64Char _ (by omega)
      have h2 : b64Index (b64Char (a % 4 * 16 + b / 16)) = some (a % 4 * 16 + b / 16) :=
        b64Index_b64Char _ (by omega)
      have h3 : b64Index (b64Char (b % 16 * 4)) = some (b % 16 * 4) :=
        b64Index_b64Char _ (by omega)
      simp [b64Encode, b64DecodeCore, h1, h2, h3, b64Char_ne_eq]
      constructor <;> omega
  | [a, b, c], h => by
      have ha : a < 256 := h a (by simp)
      have hb : b < 256 := h b (by simp)
      have hc : c < 256 := h c (by simp)
      have h1 : b64Index (b64Char (a / 4)) = some (a / 4) :=
        b64Index_b64Char _ (by omega)
      have h2 : b64Index (b64Char (a % 4 * 16 + b / 16)) = some (a % 4 * 16 + b / 16) :=
        b64Index_b64Char _ (by omega)
      have h3 : b64Index (b64Char (b % 16 * 4 + c / 64)) = some (b % 16 * 4 + c / 64) :=
        b64Index_b64Char _ (by omega)
      have h4 : b64Index (b64Char (c % 64)) = some (c % 64) :=
        b64Index_b64Char _ (by omega)
      simp [b64Encode, b64DecodeCore, h1, h2, h3, h4, b64Char_ne_eq]
      refine ⟨by omega, by omega, by omega⟩
  | a :: b :: c :: d :: rest, h => by
      have ha : a < 256 := h a (by simp)
      have hb : b < 256 := h b (by simp)
      have hc : c < 256 := h c (by simp)
      have h1 : b64Index (b64Char (a / 4)) = some (a / 4) :=
        b64Index_b64Char _ (by omega)
      have h2 : b64Index (b64Char (a % 4 * 16 + b / 16)) = some (a % 4 * 16 + b / 16) :=
        b64Index_b64Char _ (by omega)
      have h3 : b64Index (b64Char (b % 16 * 4 + c / 64)) = some (b % 16 * 4 + c / 64) :=
        b64Index_b64Char _ (by omega)
      have h4 : b64Index (b64Char (c % 64)) = some (c % 64) :=
        b64Index_b64Char _ (by omega)
      have htail : b64DecodeCore (b64Encode (d :: rest)) = some (d :: rest) :=
        b64DecodeCore_b64Encode (d :: rest) (fun x hx => h x (by simp [hx]))
      have hnil : b64Encode (d :: rest) ≠ [] := by
        match rest with
        | [] => simp [b64Encode]
        | [x] => simp [b64Encode]
        | x :: y :: rs => simp [b64Encode]
      obtain ⟨e, t, henc⟩ : ∃ e t, b64Encode (d :: rest) = e :: t :=
        List.exists_cons_of_ne_nil hnil
      show b64DecodeCore
        (b64Char (a / 4) :: b64Char (a % 4 * 16 + b / 16) ::
          b64Char (b % 16 * 4 + c / 64) :: b64Char (c % 64) :: b64Encode (d :: rest)) =
        some (a :: b :: c :: d :: rest)
      rw [henc] at htail ⊢
      simp [b64DecodeCore, h1, h2, h3, h4, htail, b64Char_ne_eq]
      refine ⟨by omega, by omega, by omega⟩


/-! ## Supporting lemmas: splitting a data URL at its comma -/

theorem splitCommaAux_no_comma (xs : List Char) (acc : List Char) (h : ',' ∉ xs) :
    splitCommaAux xs acc = [acc.reverse ++ xs] := by
  induction xs generalizing acc with
  | nil => simp [splitCommaAux]
  | cons c rest ih =>
      have hc : c ≠ ',' := fun hcc => h (by simp [hcc])
      have hrest : ',' ∉ rest := fun hr => h (by simp [hr])
      simp [splitCommaAux, hc, ih (c :: acc) hrest]

theorem splitCommaAux_split (pre suf acc : List Char) (hp : ',' ∉ pre) (hs : ',' ∉ suf) :
    splitCommaAux (pre ++ ',' :: suf) acc = [acc.reverse ++ pre, suf] := by
  induction pre generalizing acc with
  | nil => simp [splitCommaAux, splitCommaAux_no_comma suf [] hs]
  | cons c rest ih =>
      have hc : c ≠ ',' := fun hcc => hp (by simp [hcc])
      have hrest : ',' ∉ rest := fun hr => hp (by simp [hr])
      simp [splitCommaAux, hc, ih (c :: acc) hrest]

theorem b64Encode_ne_nil (a : Nat) (rest : List Nat) : b64Encode (a :: rest) ≠ [] := by
  match rest with
  | [] => simp [b64Encode]
  | [x] => simp [b64Encode]
  | x :: y :: rs => simp [b64Encode]

/-- The full `atob` model inverts the encoding of `readAsDataURL`. -/
theorem atobModel_b64Encode (b : List Nat) (h : ∀ x ∈ b, x < 256) :
    atobModel (b64Encode b) = some b := by
  rw [atobModel, b64Encode_filter_ws, b64DecodeCore_b64Encode b h]

theorem dataUrl_data (t : String) (b : List Nat) :
    (dataUrl t b).data =
      ("data:".data ++ t.data ++ ";base64".data) ++ ',' :: b64Encode b := by
  show ("data:" ++ t ++ ";base64," ++ (b64Encode b).asString).data = _
  rw [String.data_append, String.data_append, String.data_append]
  show "data:".data ++ t.data ++ ";base64,".data ++ b64Encode b = _
  have : ";base64,".data = ";base64".data ++ [','] := by decide
  rw [this]
  simp

/-- The restore path `atob(content.split(',')[1] || content)` recovers
exactly the bytes that `fileToBase64` encoded, for any comma-free MIME
type and any non-empty byte list. -/
theorem decodeDataUrl_dataUrl (t : String) (b : List Nat)
    (ht : ',' ∉ t.data) (hb : b ≠ []) (hlt : ∀ x ∈ b, x < 256) :
    decodeDataUrl (dataUrl t b) = some b := by
  have hpre : ',' ∉ ("data:".data ++ t.data ++ ";base64".data) := by
    intro hmem
    rcases List.mem_append.mp hmem with hmem | hmem
    · rcases List.mem_append.mp hmem with hmem | hmem
      · exact absurd hmem (by decide)
      · exact ht hmem
    · exact absurd hmem (by decide)
  have henc : ',' ∉ b64Encode b := fun hmem => b64Encode_no_comma b ',' hmem rfl
  obtain ⟨a, rest, rfl⟩ : ∃ a rest, b = a :: rest := by
    cases b with
    | nil => exact absurd rfl hb
    | cons a rest => exact ⟨a, rest, rfl⟩
  have hsplit :
      splitComma (dataUrl t (a :: rest)).data =
        ["data:".data ++ t.data ++ ";base64".data, b64Encode (a :: rest)] := by
    rw [dataUrl_data, splitComma, splitCommaAux_split _ _ [] hpre henc]
    simp
  rw [decodeDataUrl, hsplit]
  simp only [List.getD_cons_succ, List.getD_cons_zero]
  rw [if_neg (b64Encode_ne_nil a rest), atobModel_b64Encode _ hlt]

/-! ## Supporting lemmas: restore -/

/-- A successfully restored record carries exactly the persisted fields;
restore adds only the object URL. -/
theorem stripUrl_restoreOne (s : SavedFile) (p : PreviewFile)
    (h : restoreOne s = some p) : stripUrl p = s := by
  unfold restoreOne at h
  split at h
  · cases h
    rfl
  · split at h
    · cases hd : decodeDataUrl s.content with
      | none => rw [hd] at h; cases h
      | some bs =>
          rw [hd] at h
          cases h
          rfl
    · cases h
      rfl

/-- One throwing record poisons the whole `map` inside the restore
effect's single `try`. -/
theorem mapM_restoreOne_none (saved : List SavedFile) (b : SavedFile)
    (hb : b ∈ saved) (hfail : restoreOne b = none) :
    saved.mapM restoreOne = none := by
  induction saved with
  | nil => cases hb
  | cons x xs ih =>
      rw [List.mapM_cons]
      rcases List.mem_cons.mp hb with rfl | hmem
      · simp [hfail]
      · cases hx : restoreOne x with
        | none => simp
        | some p =>
            simp only [Option.pure_def, Option.bind_eq_bind, Option.bind_some]
            rw [ih hmem]
            rfl

/-- Stripping the URLs from a successfully restored session gives back
the stored records unchanged. -/
theorem mapM_restoreOne_stripUrl (saved : List SavedFile) (restored : List PreviewFile)
    (h : saved.mapM restoreOne = some restored) :
    restored.map stripUrl = saved := by
  induction saved generalizing restored with
  | nil =>
      rw [List.mapM_nil] at h
      cases h
      rfl
  | cons x xs ih =>
      rw [List.mapM_cons] at h
      cases hx : restoreOne x with
      | none => rw [hx] at h; cases h
      | some p =>
          rw [hx] at h
          cases hxs : xs.mapM restoreOne with
          | none => rw [hxs] at h; cases h
          | some ps =>
              rw [hxs] at h
              cases h
              simp [List.map_cons, stripUrl_restoreOne x p hx, ih ps hxs]

/-! ## Claim C1 — binary round trip through the session cache -/

/-- C1, counterexample: the PNG input is binary, so ingestion encodes it
as a base64 data URL; but the restore effect base64-decodes only records
whose type contains `pdf` or whose name ends in `.pptx`.  The restored
PNG record's blob holds the data-URL *string* (its UTF-8 bytes), not the
original bytes, so decode ∘ encode is not the identity on this binary
file even though its restore succeeds. -/
theorem C1_counterexample :
    (restoreOne (stripUrl pngDoc)).isSome = true ∧
    (restoreOne (stripUrl pngDoc)).bind (fun q => q.url.map fun u => blobBytes u.data) ≠
      some pngInput.bytes := by
  decide

/-- C1 (amended): for a binary input whose declared type contains `pdf`
or whose name ends in `.pptx` (the only files the restore effect treats
as binary), with non-empty content and a comma-free MIME type, restoring
the persisted record recreates a blob holding exactly the original
bytes. -/
theorem C1_binary_roundtrip (idv : String) (f : InputFile)
    (hbin : isTextLikeInput f = false)
    (hsel : strIncludes f.type "pdf" = true ∨ strEndsWith f.name ".pptx" = true)
    (hb : f.bytes ≠ []) (hlt : ∀ x ∈ f.bytes, x < 256) (hc : ',' ∉ f.type.data) :
    restoreOne (stripUrl (ingestOne idv f)) =
      some { id := idv, name := f.name,
             type := jsOrStr f.type "application/octet-stream", size := f.size,
             url := some { data := .bytes f.bytes,
                           type := jsOrStr f.type "application/octet-stream" },
             content := dataUrl f.type f.bytes,
             summary := none, isSummarizing := false } := by
  have hcontent : (stripUrl (ingestOne idv f)).content = dataUrl f.type f.bytes := by
    simp [stripUrl, ingestOne, hbin]
  have hcne : dataUrl f.type f.bytes ≠ "" := by
    intro h0
    have h1 := congrArg String.data h0
    rw [dataUrl_data] at h1
    simp at h1
  have hnc1 : ¬((stripUrl (ingestOne idv f)).content ≠ "" ∧
      strIncludes (stripUrl (ingestOne idv f)).type "pdf" = false ∧
      strEndsWith (stripUrl (ingestOne idv f)).name ".pptx" = false) := by
    rcases hsel with hpdf | hpptx
    · intro hcon
      have hne : f.type ≠ "" := by
        intro h0
        rw [h0] at hpdf
        exact absurd hpdf (by decide)
      have hpdf2 : strIncludes (stripUrl (ingestOne idv f)).type "pdf" = true := by
        show strIncludes (jsOrStr f.type "application/octet-stream") "pdf" = true
        rwa [jsOrStr, if_neg hne]
      rw [hcon.2.1] at hpdf2
      cases hpdf2
    · intro hcon
      have hpp : strEndsWith (stripUrl (ingestOne idv f)).name ".pptx" = true := hpptx
      rw [hcon.2.2] at hpp
      cases hpp
  unfold restoreOne
  rw [if_neg hnc1, if_pos (by rw [hcontent]; exact hcne)]
  rw [hcontent, decodeDataUrl_dataUrl f.type f.bytes hc hb hlt]
  rfl

/-- Witness for `C1_binary_roundtrip` at the concrete PDF input. -/
theorem C1_binary_roundtrip_witness :
    isTextLikeInput pdfInput = false ∧
    (strIncludes pdfInput.type "pdf" = true ∨ strEndsWith pdfInput.name ".pptx" = true) ∧
    pdfInput.bytes ≠ [] ∧ (∀ x ∈ pdfInput.bytes, x < 256) ∧ ',' ∉ pdfInput.type.data ∧
    restoreOne (stripUrl (ingestOne "id1" pdfInput)) =
      some { id := "id1", name := pdfInput.name,
             type := jsOrStr pdfInput.type "application/octet-stream",
             size := pdfInput.size,
             url := some { data := .bytes pdfInput.bytes,
                           type := jsOrStr pdfInput.type "application/octet-stream" },
             content := dataUrl pdfInput.type pdfInput.bytes,
             summary := none, isSummarizing := false } :=
  ⟨by decide, Or.inl (by decide), by decide, by decide, by decide,
    C1_binary_roundtrip "id1" pdfInput (by decide) (Or.inl (by decide))
      (by decide) (by decide) (by decide)⟩

/-! ## Claim C2 — batch ingestion -/

/-- C2, counterexample: `handleFiles` draws each record id from
`Math.random().toString(36).substr(2, 9)` and never checks uniqueness,
so nothing prevents two records of one batch from sharing an id: with
colliding draws the claimed pairwise distinctness fails. -/
theorem C2_counterexample :
    ∃ (gen : Nat → String) (inputs : List InputFile),
      ¬ (handleFiles gen inputs []).Pairwise (fun a b => a.id ≠ b.id) := by
  refine ⟨fun _ => "x", [pngInput, pngInput], ?_⟩
  decide

/-- C2 (amended): ingesting a batch of `N` files appends exactly `N` new
records after the existing ones, in input order, each built from the
matching input file; the ids are pairwise distinct and distinct from all
existing ids *provided* the `N` random draws are pairwise distinct and
avoid the existing ids — the code itself does not enforce this. -/
theorem C2_ingest (gen : Nat → String) (inputs : List InputFile) (prev : List PreviewFile)
    (hdis : ∀ i, i < inputs.length → ∀ j, j < inputs.length → i ≠ j → gen i ≠ gen j)
    (hfresh : ∀ i, i < inputs.length → ∀ p ∈ prev, gen i ≠ p.id) :
    ∃ news : List PreviewFile,
      handleFiles gen inputs prev = prev ++ news ∧
      news.length = inputs.length ∧
      (∀ i : Nat, news[i]? = (inputs[i]?).map fun x => ingestOne (gen i) x) ∧
      (∀ (i j : Nat) (a b : PreviewFile),
        i ≠ j → news[i]? = some a → news[j]? = some b → a.id ≠ b.id) ∧
      (∀ r ∈ news, ∀ p ∈ prev, r.id ≠ p.id) := by
  refine ⟨inputs.enum.map fun p => ingestOne (gen p.1) p.2, ?_,
    by rw [List.length_map, List.enum_length], ?_, ?_, ?_⟩
  · rfl
  · intro i
    rw [List.getElem?_map _ _ i, List.getElem?_enum inputs i]
    cases h : inputs[i]? <;> rfl
  · intro i j a b hij ha hb
    rw [List.getElem?_map _ _ i, List.getElem?_enum inputs i] at ha
    rw [List.getElem?_map _ _ j, List.getElem?_enum inputs j] at hb
    cases hi : inputs[i]? with
    | none => rw [hi] at ha; cases ha
    | some x =>
        cases hj : inputs[j]? with
        | none => rw [hj] at hb; cases hb
        | some y =>
            rw [hi] at ha
            rw [hj] at hb
            simp only [Option.map_some', Option.some.injEq] at ha hb
            have hilt : i < inputs.length := by
              by_contra hlt
              rw [List.getElem?_eq_none (by omega)] at hi
              cases hi
            have hjlt : j < inputs.length := by
              by_contra hlt
              rw [List.getElem?_eq_none (by omega)] at hj
              cases hj
            have hid : a.id = gen i := by rw [← ha]; rfl
            have hjd : b.id = gen j := by rw [← hb]; rfl
            rw [hid, hjd]
            exact hdis i hilt j hjlt hij
  · intro r hr p hp
    obtain ⟨i, hi, hget⟩ := List.mem_iff_getElem.mp hr
    have hlen : i < inputs.length := by simpa using hi
    have hid : r.id = gen i := by
      rw [← hget, List.getElem_map, List.getElem_enum]
      rfl
    rw [hid]
    exact hfresh i hlen p hp

/-- Witness for `C2_ingest`: a two-file batch with distinct draws over a
one-record registry. -/
theorem C2_ingest_witness :
    (∀ i, i < ([pngInput, pptxInput] : List InputFile).length →
      ∀ j, j < ([pngInput, pptxInput] : List InputFile).length → i ≠ j →
        (fun n => "w" ++ toString n) i ≠ (fun n => "w" ++ toString n) j) ∧
    (∀ i, i < ([pngInput, pptxInput] : List InputFile).length →
      ∀ p ∈ [pdfDoc], (fun n => "w" ++ toString n) i ≠ p.id) ∧
    ∃ news : List PreviewFile,
      handleFiles (fun n => "w" ++ toString n) [pngInput, pptxInput] [pdfDoc] =
        [pdfDoc] ++ news ∧
      news.length = ([pngInput, pptxInput] : List InputFile).length ∧
      (∀ i : Nat, news[i]? = (([pngInput, pptxInput] : List InputFile)[i]?).map
        fun x => ingestOne ((fun n => "w" ++ toString n) i) x) ∧
      (∀ (i j : Nat) (a b : PreviewFile),
        i ≠ j → news[i]? = some a → news[j]? = some b → a.id ≠ b.id) ∧
      (∀ r ∈ news, ∀ p ∈ [pdfDoc], r.id ≠ p.id) :=
  ⟨by decide, by decide,
    C2_ingest (fun n => "w" ++ toString n) [pngInput, pptxInput] [pdfDoc]
      (by decide) (by decide)⟩

/-! ## Claim C3 — duplicate summarization requests -/

/-- C3, counterexample: `handleSummarize` contains no guard on
`isSummarizing`; invoked on a document that is already in flight it
still issues a remote call (and performs its own resolved transition),
so a second request is not a no-op at this function. -/
theorem C3_counterexample :
    ∃ (files : List PreviewFile) (f : PreviewFile) (o : RemoteOutcome),
      f ∈ files ∧ f.isSummarizing = true ∧
      (handleSummarize files f o).remoteCalls ≠ [] := by
  refine ⟨[inflightDoc], inflightDoc, .ok "s", ?_, ?_, ?_⟩ <;> decide

/-- C3 (amended): the duplicate-request guard lives in the view, not in
`handleSummarize`: while a document is summarizing (or already has a
summary) `PreviewCard` does not render the `Gerar IA` trigger at all, so
no second request can be issued through the UI; `handleSummarize`
itself, whenever invoked, unconditionally issues exactly one remote
call. -/
theorem C3_guard (files : List PreviewFile) (f : PreviewFile) (o : RemoteOutcome)
    (h : f.isSummarizing = true) :
    showGenerate f = false ∧ (handleSummarize files f o).remoteCalls.length = 1 := by
  constructor
  · simp [showGenerate, h]
  · rfl

/-- Witness for `C3_guard` at the in-flight PDF record. -/
theorem C3_guard_witness :
    inflightDoc.isSummarizing = true ∧
    (showGenerate inflightDoc = false ∧
      (handleSummarize [inflightDoc] inflightDoc (.ok "s")).remoteCalls.length = 1) :=
  ⟨by decide, C3_guard [inflightDoc] inflightDoc (.ok "s") (by decide)⟩

/-! ## Claim C4 — failure handling of the remote call -/

/-- The two `setFiles` passes of `handleSummarize` compose to a single
per-record update: the matching record gets the produced summary and a
cleared flag, every other record is untouched. -/
theorem handleSummarize_files (files : List PreviewFile) (f : PreviewFile)
    (o : RemoteOutcome) :
    (handleSummarize files f o).files = files.map fun g =>
      if g.id = f.id then
        { g with summary := some (summarizeDocumentModel o), isSummarizing := false }
      else g := by
  simp only [handleSummarize, List.map_map]
  apply List.map_congr_left
  intro a _
  by_cases h : a.id = f.id
  · simp [Function.comp, h]
  · simp [Function.comp, h]

/-- C4, counterexample: the code has no `Failed` state.  A thrown remote
call leaves the whole component state identical to what a *successful*
call returning the same text would produce, so the post-failure state is
not distinguishable from a `Done` state. -/
theorem C4_counterexample :
    handleSummarize [pdfDoc] pdfDoc .error =
      handleSummarize [pdfDoc] pdfDoc (.ok errorFallback) := by
  rfl

/-- C4 (amended): when the remote call throws or returns an empty
result for a document, every record with that document's id ends with
the corresponding user-visible fallback message stored as its summary
and `isSummarizing = false`; but this is the same shape a success
produces — the code records no distinct `Failed` state. -/
theorem C4_failure_fallback (files : List PreviewFile) (f g : PreviewFile)
    (o : RemoteOutcome) (ho : o = .error ∨ o = .ok "")
    (hg : g ∈ (handleSummarize files f o).files) (hid : g.id = f.id) :
    g.isSummarizing = false ∧
    (g.summary = some errorFallback ∨ g.summary = some emptyFallback) := by
  have hsum : summarizeDocumentModel o = errorFallback ∨
      summarizeDocumentModel o = emptyFallback := by
    rcases ho with rfl | rfl
    · exact Or.inl rfl
    · exact Or.inr rfl
  rw [handleSummarize_files] at hg
  obtain ⟨a, _, ha⟩ := List.mem_map.mp hg
  by_cases hcase : a.id = f.id
  · rw [if_pos hcase] at ha
    rw [← ha]
    rcases hsum with h | h
    · exact ⟨rfl, Or.inl (by rw [h])⟩
    · exact ⟨rfl, Or.inr (by rw [h])⟩
  · rw [if_neg hcase] at ha
    rw [← ha] at hid
    exact absurd hid hcase

/-- Witness for `C4_failure_fallback`: the thrown-call outcome on the
PDF record. -/
theorem C4_failure_fallback_witness :
    ((RemoteOutcome.error = RemoteOutcome.error ∨
        RemoteOutcome.error = RemoteOutcome.ok "") ∧
      pdfDocFailed ∈ (handleSummarize [pdfDoc] pdfDoc .error).files ∧
      pdfDocFailed.id = pdfDoc.id) ∧
    (pdfDocFailed.isSummarizing = false ∧
      (pdfDocFailed.summary = some errorFallback ∨
        pdfDocFailed.summary = some emptyFallback)) :=
  ⟨⟨Or.inl rfl, by decide, rfl⟩,
    C4_failure_fallback [pdfDoc] pdfDoc pdfDocFailed .error
      (Or.inl rfl) (by decide) rfl⟩

/-! ## Claim C5 — a malformed record during restore -/

/-- C5, counterexample: the stored session holds one well-formed record
and one record with a malformed base64 payload.  The bad record's `atob`
throws inside the single `try` that wraps the whole `map`, so *no*
record is restored — even though the good record restores fine on its
own.  The claimed per-record error boundary does not exist. -/
theorem C5_counterexample :
    restoreEffect (some [goodSaved, badSaved]) = [] ∧
    (restoreOne goodSaved).isSome = true := by
  constructor
  · rfl
  · decide

/-- C5 (amended): a decode failure on *any* stored record aborts the
whole restore: the `catch` swallows the error, `setFiles` is never
reached, and the state keeps its initial empty value — all other
records of the session are lost for the running session. -/
theorem C5_restore_aborts (saved : List SavedFile) (b : SavedFile)
    (hb : b ∈ saved) (hfail : restoreOne b = none) :
    restoreEffect (some saved) = [] := by
  rw [restoreEffect, restoreSession, mapM_restoreOne_none saved b hb hfail]
  rfl

/-- Witness for `C5_restore_aborts` at the two-record session. -/
theorem C5_restore_aborts_witness :
    badSaved ∈ [goodSaved, badSaved] ∧ restoreOne badSaved = none ∧
    restoreEffect (some [goodSaved, badSaved]) = [] :=
  ⟨by decide, by decide,
    C5_restore_aborts [goodSaved, badSaved] badSaved (by decide) (by decide)⟩

/-! ## Claim C6 — quota overflow leaves the stored session intact -/

/-- C6, confirmed: when the serialized payload exceeds the quota the
modelled `setItem` throws without touching the previous entry, the save
effect catches the error (it is a total function — nothing propagates
past the boundary), the store is left exactly as before the failed save,
and an immediate load returns the pre-save contents. -/
theorem C6_quota_save_atomic (quota : Nat) (st : StorageState)
    (files : List PreviewFile)
    (h : sessionSize (files.map stripUrl) > quota) :
    (saveEffect quota st files false).1 = st ∧
    (saveEffect quota st files false).1.entry = st.entry := by
  have hfail : (setItemModel quota st (files.map stripUrl)).1 = st := by
    rw [setItemModel, if_neg (by omega)]
  constructor
  · show (setItemModel quota st (files.map stripUrl)).1 = st
    exact hfail
  · show (setItemModel quota st (files.map stripUrl)).1.entry = st.entry
    rw [hfail]

/-- Witness for `C6_quota_save_atomic`: a one-record save against a
zero quota over a previously stored session. -/
theorem C6_quota_save_atomic_witness :
    sessionSize ([pdfDoc].map stripUrl) > 0 ∧
    ((saveEffect 0 { entry := some [goodSaved] } [pdfDoc] false).1 =
        { entry := some [goodSaved] } ∧
      (saveEffect 0 { entry := some [goodSaved] } [pdfDoc] false).1.entry =
        some [goodSaved]) :=
  ⟨by decide, C6_quota_save_atomic 0 { entry := some [goodSaved] } [pdfDoc] (by decide)⟩

/-! ## Claim C7 — restore does trigger a save of the loaded records -/

/-- C7, counterexample: mounting over a stored one-record session, the
`isRestoring` guard skips only the save effect's first run; once the
restore completes and `isRestoring` flips to `false`, the save effect
re-runs with the just-loaded records and performs a save of exactly
those records — contradicting the claim that no save is triggered. -/
theorem C7_counterexample :
    (mountApp 1000000 { entry := some [goodSaved] }).savesAttempted = [[goodSaved]] ∧
    (mountApp 1000000 { entry := some [goodSaved] }).savesAttempted ≠ [] := by
  constructor
  · rfl
  · intro h
    rw [show (mountApp 1000000 { entry := some [goodSaved] }).savesAttempted =
        [[goodSaved]] from rfl] at h
    cases h

/-- C7 (amended): over any stored session whose records all restore,
the guard suppresses the save only during the restore phase itself
(protecting the stored session from the initial empty state); the
render that completes the restore immediately performs one save, whose
payload is exactly the stored records written back unchanged. -/
theorem C7_mount_resave (quota : Nat) (st0 : StorageState)
    (saved : List SavedFile) (restored : List PreviewFile)
    (hst : st0.entry = some saved) (hres : restoreSession saved = some restored) :
    (saveEffect quota st0 [] true).2 = none ∧
    (mountApp quota st0).savesAttempted = [saved] := by
  have hstrip : restored.map stripUrl = saved :=
    mapM_restoreOne_stripUrl saved restored hres
  constructor
  · rfl
  · show (saveEffect quota st0 [] true).2.toList ++
      (saveEffect quota (saveEffect quota st0 [] true).1
        (restoreEffect st0.entry) false).2.toList = [saved]
    rw [hst]
    show (saveEffect quota st0 [] true).2.toList ++
      (saveEffect quota (saveEffect quota st0 [] true).1
        ((restoreSession saved).getD []) false).2.toList = [saved]
    rw [hres]
    show [] ++ [restored.map stripUrl] = [saved]
    rw [hstrip]
    rfl

/-- Witness for `C7_mount_resave` at the one-record session. -/
theorem C7_mount_resave_witness :
    (StorageState.entry { entry := some [goodSaved] } = some [goodSaved]) ∧
    (∃ restored, restoreSession [goodSaved] = some restored) ∧
    ((saveEffect 1000000 { entry := some [goodSaved] } [] true).2 = none ∧
      (mountApp 1000000 { entry := some [goodSaved] }).savesAttempted = [[goodSaved]]) :=
  ⟨rfl, ⟨_, rfl⟩,
    C7_mount_resave 1000000 { entry := some [goodSaved] } [goodSaved] _ rfl rfl⟩

/-! ## Claim C8 — totality and precedence of the render dispatch -/

/-- C8, confirmed: `renderContent` is a total function — every
`(document, viewMode)` pair yields exactly one strategy — and in
summary mode it returns the summarization view built from the
lifecycle state and summary, whatever the document's type or name. -/
theorem C8_render_total (f : PreviewFile) :
    renderContent f .summary = .summaryView f.isSummarizing f.summary ∧
    ∀ vm : ViewMode, ∃! r : RenderStrategy, renderContent f vm = r := by
  constructor
  · rfl
  · intro vm
    exact ⟨renderContent f vm, rfl, fun y hy => hy.symm⟩

/-! ## Claim C9 — what the remote summarization call receives -/

set_option maxRecDepth 40000 in
/-- C9, counterexample: the ingested PPTX record is not a PDF, its
decoded text content is `AB` (the decode of its stored payload), yet
`handleSummarize` sends neither that decoded text nor the filename: it
sends the stored base64 data URL itself. -/
theorem C9_counterexample :
    strIncludes pptxDoc.type "pdf" = false ∧
    utf8Encode "AB" = pptxInput.bytes ∧
    decodeDataUrl pptxDoc.content = some pptxInput.bytes ∧
    textToSummarize pptxDoc ≠ "AB" ∧
    textToSummarize pptxDoc ≠ pptxDoc.name := by
  decide

/-- C9 (amended): for a PDF-typed document the remote call receives the
filename placeholder; for every other document it receives the *stored*
content string as-is — the verbatim text for text-like files, but the
base64 data URL for binary files — or the filename when the stored
content is empty; and the content portion embedded in the prompt is
truncated to at most 5000 characters. -/
theorem C9_input_selection (files : List PreviewFile) (f : PreviewFile)
    (o : RemoteOutcome) :
    (handleSummarize files f o).remoteCalls =
      [promptHeader f.name ++ jsSubstring (textToSummarize f) 5000] ∧
    textToSummarize f = (if strIncludes f.type "pdf" then "Documento PDF: " ++ f.name
      else if f.content = "" then f.name else f.content) ∧
    (jsSubstring (textToSummarize f) 5000).length ≤ 5000 := by
  refine ⟨rfl, ?_, ?_⟩
  · by_cases h : strIncludes f.type "pdf" = true
    · simp [textToSummarize, h]
    · rw [Bool.not_eq_true] at h
      simp [textToSummarize, jsOrStr, h]
  · have hlen : (jsSubstring (textToSummarize f) 5000).length =
        ((textToSummarize f).data.take 5000).length := rfl
    rw [hlen, List.length_take]
    omega

/-! ## Claim C10 — the persisted shape and the in-flight flag -/

/-- C10, confirmed: the persisted record drops exactly the resource
handle — every other field, including the transient `isSummarizing`
flag and the summary, survives the save (`stripUrl`) — and a restored
record carries exactly the persisted fields back (`stripUrl p = s`), so
a record saved mid-flight restores still marked as summarizing even
though the restore path issues no remote call. -/
theorem C10_persisted_shape (f : PreviewFile) (s : SavedFile) (p : PreviewFile)
    (h : restoreOne s = some p) :
    (stripUrl f).id = f.id ∧ (stripUrl f).name = f.name ∧
    (stripUrl f).type = f.type ∧ (stripUrl f).size = f.size ∧
    (stripUrl f).content = f.content ∧ (stripUrl f).summary = f.summary ∧
    (stripUrl f).isSummarizing = f.isSummarizing ∧
    stripUrl p = s ∧ p.isSummarizing = s.isSummarizing := by
  have hps := stripUrl_restoreOne s p h
  refine ⟨rfl, rfl, rfl, rfl, rfl, rfl, rfl, hps, ?_⟩
  rw [← hps]
  rfl

/-- Witness for `C10_persisted_shape`: the PDF record saved while its
summarization was in flight restores as the same record, still in
flight. -/
theorem C10_persisted_shape_witness :
    restoreOne inflightSaved = some inflightDoc ∧
    ((stripUrl inflightDoc).id = inflightDoc.id ∧
      (stripUrl inflightDoc).name = inflightDoc.name ∧
      (stripUrl inflightDoc).type = inflightDoc.type ∧
      (stripUrl inflightDoc).size = inflightDoc.size ∧
      (stripUrl inflightDoc).content = inflightDoc.content ∧
      (stripUrl inflightDoc).summary = inflightDoc.summary ∧
      (stripUrl inflightDoc).isSummarizing = inflightDoc.isSummarizing ∧
      stripUrl inflightDoc = inflightSaved ∧
      inflightDoc.isSummarizing = inflightSaved.isSummarizing) :=
  ⟨by decide,
    C10_persisted_shape inflightDoc inflightSaved inflightDoc (by decide)⟩

end DocHub
